import Mathlib

/-!
# Verification of the social-app interaction layer

Shallow embedding of the repository's Firestore-backed interaction code:
the post like toggle (`togglePostLike`, `checkIfPostLiked`), the comment
service (`addComment`, `deleteComment`), the collection assignment handler
(`handleAddClipsToCollection`), the storage security rules
(`firebase-storage-enhanced.rules`), and the feed page construction
(`fetchAllPosts` / `getUserData` with its user cache).

Firestore documents are modelled as association lists keyed by document id;
a missing key models a document that does not exist.  `updateDoc` on a
missing document throws in Firestore, which the source catches — the
embedding reproduces the catch branches for exactly that error source.
JavaScript string falsiness (`""` is falsy) and `String.prototype.trim`
are modelled explicitly.
-/

namespace XYZen

/-- Association-list lookup by key (first match), modelling a Firestore
document read: `none` means the document does not exist. -/
def getEntry {α : Type} : List (String × α) → String → Option α
  | [], _ => none
  | (k, v) :: rest, key => if k = key then some v else getEntry rest key

/-- Replace the value stored under a key (first match), modelling a
Firestore `updateDoc`/`setDoc` on an existing document.  When the key is
absent the list is unchanged (the embedding only calls this after a
successful `getEntry`). -/
def setEntry {α : Type} : List (String × α) → String → α → List (String × α)
  | [], _, _ => []
  | (k, v) :: rest, key, newV =>
    if k = key then (k, newV) :: rest else (k, v) :: setEntry rest key newV

/-- Remove every value stored under a key, modelling `deleteDoc`
(which succeeds even when the document does not exist). -/
def removeEntry {α : Type} : List (String × α) → String → List (String × α)
  | [], _ => []
  | (k, v) :: rest, key =>
    if k = key then removeEntry rest key else (k, v) :: removeEntry rest key

theorem getEntry_setEntry {α : Type} (l : List (String × α)) (k : String) (v : α)
    (k' : String) :
    getEntry (setEntry l k v) k' =
      if k' = k then (getEntry l k).map (fun _ => v) else getEntry l k' := by
  induction l with
  | nil => simp [getEntry, setEntry]
  | cons hd tl ih =>
    obtain ⟨hk, hv⟩ := hd
    by_cases h1 : hk = k
    · by_cases h2 : hk = k'
      · have h3 : k' = k := h2.symm.trans h1
        simp [getEntry, setEntry, h1, h2, h3]
      · have h3 : ¬ k' = k := fun h => h2 (h1.trans h.symm)
        have h4 : ¬ k = k' := fun h => h2 (h1.trans h)
        simp [getEntry, setEntry, h1, h2, h3, h4]
    · by_cases h2 : hk = k'
      · have h3 : ¬ k' = k := fun h => h1 (h2.trans h)
        simp [getEntry, setEntry, h1, h2, h3]
      · simp [getEntry, setEntry, h1, h2, ih]

theorem getEntry_removeEntry {α : Type} (l : List (String × α)) (k k' : String) :
    getEntry (removeEntry l k) k' = if k' = k then none else getEntry l k' := by
  induction l with
  | nil => simp [getEntry, removeEntry]
  | cons hd tl ih =>
    obtain ⟨hk, hv⟩ := hd
    by_cases h1 : hk = k
    · by_cases h2 : k' = k
      · subst h2
        simp [getEntry, removeEntry, h1, ih]
      · have h3 : ¬ hk = k' := fun h => h2 (h.symm.trans h1)
        have h4 : ¬ k = k' := fun h => h2 h.symm
        simp [getEntry, removeEntry, h1, h2, h3, h4, ih]
    · by_cases h2 : hk = k'
      · have h3 : ¬ k' = k := fun h => h1 (h2.trans h)
        simp [getEntry, removeEntry, h1, h2, h3]
      · simp [getEntry, removeEntry, h1, h2, ih]

/-- The authenticated Firebase user (`auth.currentUser`): uid plus an
optional email address. -/
structure AuthUser where
  uid : String
  email : Option String
  deriving Repr, DecidableEq

/-- A document in the `posts` collection, with the fields written by the
upload screen (`userId`, `title`, `description`, `mediaUrl`,
`thumbnailUrl`, `collection`, `timestamp`, `likes`, `comments`) plus the
`likedBy` array maintained by `togglePostLike`. -/
structure PostDoc where
  userId : String
  title : String
  description : String
  mediaUrl : String
  thumbnailUrl : String
  collectionName : String
  timestamp : Nat
  likes : Int
  likedBy : List String
  comments : Int
  deriving Repr, DecidableEq

/-- A document in the `users` collection: the `likedPosts` array written by
`togglePostLike` and the profile fields read by the feed screen. -/
structure UserDoc where
  likedPosts : List String
  username : Option String
  displayName : Option String
  isVerified : Bool
  deriving Repr, DecidableEq

/-- A document in the `comments` collection, as written by `addComment`. -/
structure CommentDoc where
  videoId : String
  text : String
  userId : String
  username : String
  userPhotoURL : String
  likes : Int
  deriving Repr, DecidableEq

/-- A document in the `collections` collection, as written by the upload
screen and the collection detail screen. -/
structure CollectionDoc where
  title : String
  createdBy : String
  itemCount : Int
  deriving Repr, DecidableEq

/-- The Firestore database state: the four collections the interaction
code touches, plus a counter supplying fresh document ids for `addDoc`. -/
structure DB where
  posts : List (String × PostDoc)
  users : List (String × UserDoc)
  commentDocs : List (String × CommentDoc)
  collections : List (String × CollectionDoc)
  nextId : Nat
  deriving Repr, DecidableEq

/-- Firestore `arrayUnion`: append the element unless it is already
present (set semantics on the stored array). -/
def arrayUnion (xs : List String) (x : String) : List String :=
  if x ∈ xs then xs else xs ++ [x]

/-- Firestore `arrayRemove`: remove every occurrence of the element. -/
def arrayRemove (xs : List String) (x : String) : List String :=
  xs.filter (fun y => y ≠ x)

/-! ## Like toggling (`togglePostLike`, from the like service) -/

/-- The result record of `togglePostLike`:
`{ success, newLikeStatus, countDelta }`. -/
structure ToggleResult where
  success : Bool
  newLikeStatus : Bool
  countDelta : Int
  deriving Repr, DecidableEq

/-- The post-side update of a toggle: `likes: increment(±1)` together with
`likedBy: arrayUnion/arrayRemove(userId)`. -/
def applyPostLike (P : PostDoc) (userId : String) (liking : Bool) : PostDoc :=
  if liking then
    { P with likes := P.likes + 1, likedBy := arrayUnion P.likedBy userId }
  else
    { P with likes := P.likes - 1, likedBy := arrayRemove P.likedBy userId }

/-- The user-side update of a toggle:
`likedPosts: arrayUnion/arrayRemove(postId)`. -/
def applyUserLike (U : UserDoc) (postId : String) (liking : Bool) : UserDoc :=
  if liking then { U with likedPosts := arrayUnion U.likedPosts postId }
  else { U with likedPosts := arrayRemove U.likedPosts postId }

/-- The catch-branch fallback of `togglePostLike`: update only the post's
`likes` counter by `increment(newLikeStatus ? 1 : -1)`. -/
def fallbackDoc (P1 : PostDoc) (s : Bool) : PostDoc :=
  { P1 with likes := P1.likes + (if s then 1 else -1) }

/-- Function `togglePostLike(postId, isCurrentlyLiked)` from the like service.
Returns the updated database paired with the result record.

The source takes the current like status from the caller, negates it, and
in the happy path updates the post document (counter and `likedBy` array)
and then the user document (`likedPosts` array).  If the post document is
missing, both the main path and the fallback `updateDoc` throw, so nothing
changes and `success` is `false`.  If the post exists but the user document
is missing, the post update has already been applied when the user update
throws; the catch branch then runs the fallback, which increments the
post's `likes` counter a second time and reports success. -/
def togglePostLike (currentUser : Option AuthUser) (db : DB) (postId : String)
    (isCurrentlyLiked : Bool) : DB × ToggleResult :=
  match currentUser with
  | none => (db, ⟨false, isCurrentlyLiked, 0⟩)
  | some au =>
    let userId := au.uid
    let newLikeStatus := !isCurrentlyLiked
    match getEntry db.posts postId with
    | none => (db, ⟨false, isCurrentlyLiked, 0⟩)
    | some P =>
      let db1 : DB :=
        { db with posts := setEntry db.posts postId (applyPostLike P userId newLikeStatus) }
      match getEntry db1.users userId with
      | some U =>
        let db2 : DB :=
          { db1 with users := setEntry db1.users userId (applyUserLike U postId newLikeStatus) }
        (db2, ⟨true, newLikeStatus, if newLikeStatus then 1 else -1⟩)
      | none =>
        match getEntry db1.posts postId with
        | some P1 =>
          let db2 : DB := { db1 with posts := setEntry db1.posts postId (fallbackDoc P1 newLikeStatus) }
          (db2, ⟨true, newLikeStatus, if newLikeStatus then 1 else -1⟩)
        | none => (db1, ⟨false, isCurrentlyLiked, 0⟩)

/-! ## Comment service (`addComment`, `deleteComment`) -/

/-- JavaScript `String.prototype.trim`: drop leading and trailing
whitespace characters. -/
def jsTrim (s : String) : String :=
  String.mk (((s.data.dropWhile Char.isWhitespace).reverse.dropWhile Char.isWhitespace).reverse)

/-- JavaScript `a || b` on an optional string: `b` when `a` is absent
(`undefined`) or the empty string (falsy), otherwise `a`. -/
def jsStringOr (a : Option String) (b : String) : String :=
  match a with
  | some s => if s = "" then b else s
  | none => b

/-- The `userProfile` argument of `addComment`:
`{username?, photoURL?} | null`. -/
structure UserProfileArg where
  username : Option String
  photoURL : Option String
  deriving Repr, DecidableEq

/-- Expression `userProfile?.username || auth.currentUser.email?.split('@')[0] ||
'anonymous'` from `addComment`. -/
def commentUsernameOf (userProfile : Option UserProfileArg) (email : Option String) : String :=
  jsStringOr (userProfile.bind (fun p => p.username))
    (jsStringOr (email.map (fun e => (e.splitOn "@").headD "")) "anonymous")

/-- The result record of `addComment`: `{success, commentId?}`. -/
structure AddCommentResult where
  success : Bool
  commentId : Option String
  deriving Repr, DecidableEq

/-- A fresh document id produced by `addDoc` (Firestore generates a unique
id; the embedding draws it from the database's id counter). -/
def freshId (n : Nat) : String := "doc" ++ toString n

/-- Function `addComment(videoId, commentText, userProfile)` from
`src/services/commentService.ts`.

Fails (returning `{success: false}` and writing nothing) when there is no
authenticated user or the comment text trims to the empty string.
Otherwise it creates the comment document with the trimmed text and then
increments the post's `comments` counter; if the post document does not
exist that `updateDoc` throws and the catch branch reports failure, but the
comment document created just before remains. -/
def addComment (currentUser : Option AuthUser) (db : DB) (videoId commentText : String)
    (userProfile : Option UserProfileArg) : DB × AddCommentResult :=
  match currentUser with
  | none => (db, ⟨false, none⟩)
  | some au =>
    if jsTrim commentText = "" then (db, ⟨false, none⟩)
    else
      let username := commentUsernameOf userProfile au.email
      let cid := freshId db.nextId
      let cdoc : CommentDoc :=
        { videoId := videoId
          text := jsTrim commentText
          userId := au.uid
          username := username
          userPhotoURL := jsStringOr (userProfile.bind (fun p => p.photoURL)) ""
          likes := 0 }
      let db1 : DB :=
        { db with commentDocs := (cid, cdoc) :: db.commentDocs, nextId := db.nextId + 1 }
      match getEntry db1.posts videoId with
      | some P =>
        let P1 : PostDoc := { P with comments := P.comments + 1 }
        ({ db1 with posts := setEntry db1.posts videoId P1 }, ⟨true, some cid⟩)
      | none => (db1, ⟨false, none⟩)

/-- Function `deleteComment(commentId, videoId)` from
`src/services/commentService.ts`, executed against the Firestore security
rules of `src/firebase/firestore.rules`.

The client function itself checks only that some user is authenticated
and calls `deleteDoc` without reading the comment, but every direct SDK
write in this app is guarded by the declarative rules: the
`/comments/{commentId}` rule allows `delete` only when
`resource.data.userId == request.auth.uid`, so a non-author's (or a
nonexistent comment's, where `resource` is null) `deleteDoc` is denied,
the thrown permission error lands in the catch branch, and the call
returns `{success: false}` with nothing changed.  For the author the
delete is allowed; the subsequent `comments: increment(-1)` on the post
is allowed for any authenticated user by the posts rule
(`affectedKeys().hasOnly(['likes', 'comments', 'likedBy'])`) and throws
only if the post document is missing, in which case the catch branch
reports failure with the comment already deleted. -/
def deleteComment (currentUser : Option AuthUser) (db : DB) (commentId videoId : String) :
    DB × Bool :=
  match currentUser with
  | none => (db, false)
  | some au =>
    match getEntry db.commentDocs commentId with
    | none => (db, false)
    | some c =>
      if c.userId = au.uid then
        let db1 : DB := { db with commentDocs := removeEntry db.commentDocs commentId }
        match getEntry db1.posts videoId with
        | some P =>
          let P1 : PostDoc := { P with comments := P.comments - 1 }
          ({ db1 with posts := setEntry db1.posts videoId P1 }, true)
        | none => (db1, false)
      else (db, false)

/-! ## Collection assignment (`handleAddClipsToCollection`, collection
detail screen) -/

/-- The `for (const clipId of selectedClips)` loop: set each selected
post's `collection` field to the target collection's title.  A missing
post document makes `updateDoc` throw, aborting the loop (and the whole
`try` block) while keeping the updates already applied; the `Bool`
records whether the loop completed. -/
def updatePostsCollection (title : String) : DB → List String → DB × Bool
  | db, [] => (db, true)
  | db, clipId :: rest =>
    match getEntry db.posts clipId with
    | some P =>
      let P1 : PostDoc := { P with collectionName := title }
      updatePostsCollection title { db with posts := setEntry db.posts clipId P1 } rest
    | none => (db, false)

/-- Handler `handleAddClipsToCollection` from the collection detail screen.

Guard: returns immediately when no clips are selected or the collection
title or route id is missing/empty (JavaScript falsiness).  Otherwise it
sets each selected post's `collection` field to this collection's title
and then increments this collection's `itemCount` by the number of
selected clips.  No ownership check is performed inside the handler, and
no other collection's `itemCount` is touched. -/
def handleAddClipsToCollection (db : DB) (selectedClips : List String)
    (collectionTitle : Option String) (routeId : Option String) : DB :=
  match collectionTitle, routeId with
  | some title, some cid =>
    if selectedClips.isEmpty || title = "" || cid = "" then db
    else
      let step := updatePostsCollection title db selectedClips
      if step.2 then
        match getEntry step.1.collections cid with
        | some C =>
          let C1 : CollectionDoc := { C with itemCount := C.itemCount + selectedClips.length }
          { step.1 with collections := setEntry step.1.collections cid C1 }
        | none => step.1
      else step.1
  | _, _ => db

/-! ## Storage security rules (`firebase-storage-enhanced.rules`) -/

/-- A storage write request as seen by the security rules:
`request.auth` (the uid, or `none` when unauthenticated),
`request.resource.size` in bytes, and `request.resource.contentType`. -/
structure StorageWriteRequest where
  authUid : Option String
  size : Nat
  contentType : String
  deriving Repr, DecidableEq

/-- Condition `request.resource.contentType.matches('video/.*')`: the full-string
regex match holds exactly when the content type starts with `video/`. -/
def isVideoType (ct : String) : Bool := String.isPrefixOf "video/" ct

/-- Condition `request.resource.contentType.matches('image/.*')`. -/
def isImageType (ct : String) : Bool := String.isPrefixOf "image/" ct

/-- The `allow write` condition of `match /clips/{userId}/{fileName}`:
authenticated as the path owner, size under 50MB, video content type. -/
def clipsWriteAllowed (userId : String) (r : StorageWriteRequest) : Bool :=
  (r.authUid == some userId) && decide (r.size < 50 * 1024 * 1024) && isVideoType r.contentType

/-- The `allow write` condition of
`match /profilePictures/{userId}/{fileName}`: owner, under 5MB, image. -/
def profilePicturesWriteAllowed (userId : String) (r : StorageWriteRequest) : Bool :=
  (r.authUid == some userId) && decide (r.size < 5 * 1024 * 1024) && isImageType r.contentType

/-- The `allow write` condition of
`match /collections/{userId}/{fileName}`: owner, under 5MB, image. -/
def collectionsWriteAllowed (userId : String) (r : StorageWriteRequest) : Bool :=
  (r.authUid == some userId) && decide (r.size < 5 * 1024 * 1024) && isImageType r.contentType

/-- The `allow write` condition of
`match /thumbnails/{userId}/{fileName}`: owner, under 2MB, image. -/
def thumbnailsWriteAllowed (userId : String) (r : StorageWriteRequest) : Bool :=
  (r.authUid == some userId) && decide (r.size < 2 * 1024 * 1024) && isImageType r.contentType

/-! ## Feed page construction (`fetchAllPosts` / `getUserData`,
feed screen) -/

/-- One item of the feed as built by the feed screen from a post document
and the (possibly missing) author's user document, with the JavaScript
falsy-default expressions of the source. -/
structure FeedItem where
  id : String
  artist : String
  username : String
  title : String
  description : String
  likes : Int
  comments : Int
  videoUri : String
  thumbnail : String
  isVerified : Bool
  userId : String
  collectionName : String
  deriving Repr, DecidableEq

/-- Expression `displayName.toLowerCase().replace(/\s+/g, '')`. -/
def handleFromDisplayName (displayName : String) : String :=
  String.mk ((displayName.data.map Char.toLower).filter (fun c => ¬ c.isWhitespace))

/-- The username shown for a post:
`userData.username ? '@'+username : (userData.displayName ? '@'+mangled :
'@user')`, defaulting to `@user` when no user document was found. -/
def feedUsername (u : Option UserDoc) : String :=
  match u with
  | none => "@user"
  | some ud =>
    match ud.username with
    | some s =>
      if s = "" then
        match ud.displayName with
        | some d => if d = "" then "@user" else "@" ++ handleFromDisplayName d
        | none => "@user"
      else "@" ++ s
    | none =>
      match ud.displayName with
      | some d => if d = "" then "@user" else "@" ++ handleFromDisplayName d
      | none => "@user"

/-- Build one feed item from a post document and the resolved author. -/
def mkFeedItem (pid : String) (P : PostDoc) (u : Option UserDoc) : FeedItem :=
  { id := pid
    artist := if P.title = "" then "Unknown Artist" else P.title
    username := feedUsername u
    title := if P.title = "" then "Untitled" else P.title
    description := P.description
    likes := P.likes
    comments := P.comments
    videoUri := P.mediaUrl
    thumbnail := if P.thumbnailUrl = "" then
        "https://via.placeholder.com/640x360/000000/FFFFFF?text=Video"
      else P.thumbnailUrl
    isVerified := (u.map (fun ud => ud.isVerified)).getD false
    userId := P.userId
    collectionName := P.collectionName }

/-- Function `getUserData(userId)` from the feed screen, as it executes
inside one `onSnapshot` page build.  `userCache` is React state captured
by the callback's closure, so every call in the same page build reads the
same cache snapshot: the `setUserCache` calls only enqueue updates for a
future render and are never visible to later `getUserData` calls of this
build.  On a cache miss a `getDoc` store fetch happens (recorded by the
`Bool`) and its result is returned directly. -/
def getUserData (cache store : List (String × UserDoc)) (userId : String) :
    Option UserDoc × Bool :=
  match getEntry cache userId with
  | some u => (some u, false)
  | none => (getEntry store userId, true)

/-- The prefetch step of `fetchAllPosts`: `getUserData` is called for
each deduplicated page author id not in the (stale) cache snapshot; the
result is the list of ids for which a store fetch happened. -/
def prefetchUsers (cache store : List (String × UserDoc)) (ids : List String) :
    List String :=
  ids.filter (fun i => (getUserData cache store i).2)

/-- The per-post mapping of `fetchAllPosts`: build each feed item,
resolving the author through `getUserData` against the same stale cache
snapshot (skipped for a falsy `userId`), collecting the ids fetched from
the store, in post order. -/
def buildFeed (cache store : List (String × UserDoc)) :
    List (String × PostDoc) → List FeedItem × List String
  | [] => ([], [])
  | (pid, P) :: rest =>
    let restRes := buildFeed cache store rest
    if P.userId = "" then (mkFeedItem pid P none :: restRes.1, restRes.2)
    else
      let step := getUserData cache store P.userId
      (mkFeedItem pid P step.1 :: restRes.1,
        if step.2 then P.userId :: restRes.2 else restRes.2)

/-- Insert a post into a list kept in descending `timestamp` order. -/
def insertByTs (p : String × PostDoc) : List (String × PostDoc) → List (String × PostDoc)
  | [] => [p]
  | q :: rest =>
    if q.2.timestamp ≤ p.2.timestamp then p :: q :: rest else q :: insertByTs p rest

/-- The Firestore query `orderBy('timestamp', 'desc')`: sort the posts
collection by creation timestamp, newest first. -/
def sortByTsDesc (l : List (String × PostDoc)) : List (String × PostDoc) :=
  l.foldr insertByTs []

/-- The page of posts returned by the feed query:
`orderBy('timestamp', 'desc'), limit(20)`. -/
def feedPage (db : DB) : List (String × PostDoc) :=
  (sortByTsDesc db.posts).take 20

/-- Function `fetchAllPosts`: take the page of posts (newest first, limit 20),
prefetch the distinct author ids not in the cache, then build the feed
items through `getUserData` — every lookup against the same stale
`userCache` snapshot.  Returns the feed items and every id for which a
`getDoc` store fetch happened, in order (prefetch first, then per
post). -/
def fetchAllPosts (db : DB) (cache : List (String × UserDoc)) :
    List FeedItem × List String :=
  let page := feedPage db
  let ids := (page.map (fun p => p.2.userId)).dedup
  let toFetch := ids.filter (fun i => (getEntry cache i).isNone)
  let res := buildFeed cache db.users page
  (res.1, prefetchUsers cache db.users toFetch ++ res.2)

/-! ## Reconciliation (modelled from the spec) -/

/-- Modelled from the spec: the reconciliation sweep of §4.2/§8 is not
implemented anywhere in the source (the client writes counters directly);
per the spec it "recomputes each counter as the true count of its backing
edges" — here, each post's `likes` counter becomes the number of distinct
users in its `likedBy` edge array. -/
def reconcilePost (P : PostDoc) : PostDoc :=
  { P with likes := (P.likedBy.dedup.length : Int) }

/-- Modelled from the spec: reconciliation applied to every post. -/
def reconcile (db : DB) : DB :=
  { db with posts := db.posts.map (fun kv => (kv.1, reconcilePost kv.2)) }

/-- One call to `togglePostLike`, as issued by some client. -/
structure ToggleOp where
  user : Option AuthUser
  postId : String
  isCurrentlyLiked : Bool

/-- Run a sequence of `togglePostLike` calls against the database. -/
def runToggles : DB → List ToggleOp → DB
  | db, [] => db
  | db, op :: rest => runToggles (togglePostLike op.user db op.postId op.isCurrentlyLiked).1 rest

/-- Every post's `likedBy` edge array holds each user at most once. -/
def atMostOneEdge (db : DB) : Prop :=
  ∀ pid P, getEntry db.posts pid = some P → P.likedBy.Nodup

/-! ## Concrete fixtures for witnesses and counterexamples -/

/-- A post by alice with five comments and no likes. -/
def alicePost : PostDoc :=
  { userId := "alice", title := "Take 1", description := "", mediaUrl := "m.mp4"
    thumbnailUrl := "th.jpg", collectionName := "Demos", timestamp := 5
    likes := 0, likedBy := [], comments := 5 }

/-- Alice's user document. -/
def aliceUser : UserDoc :=
  { likedPosts := [], username := some "alice", displayName := some "Alice A", isVerified := true }

/-- A second user's document. -/
def u1User : UserDoc :=
  { likedPosts := [], username := none, displayName := none, isVerified := false }

/-- A comment on alice's post, authored by alice. -/
def c1doc : CommentDoc :=
  { videoId := "p1", text := "hi", userId := "alice", username := "alice"
    userPhotoURL := "", likes := 0 }

/-- A small database: one post, two users, one comment. -/
def dbW : DB :=
  { posts := [("p1", alicePost)], users := [("alice", aliceUser), ("u1", u1User)]
    commentDocs := [("c1", c1doc)], collections := [], nextId := 0 }

/-! ## C9 -/

/-- C9: with no authenticated user, `togglePostLike` returns
`success = false`, `newLikeStatus` equal to the passed-in
`isCurrentlyLiked`, `countDelta = 0`, and leaves the database (every post
and user document) unchanged. -/
theorem togglePostLike_unauthenticated (db : DB) (postId : String) (b : Bool) :
    togglePostLike none db postId b = (db, ⟨false, b, 0⟩) := rfl

/-! ## C1 -/

/-- C1: guarded by the `/comments` security rule (delete only when
`resource.data.userId == request.auth.uid`), `deleteComment` fails — the
denied write surfaces as `success = false`, the transport of the spec's
`Forbidden` — whenever the caller is not the comment's author, changing
nothing; when the caller is the author, the comment is deleted and the
post's comment counter decreases by exactly 1. -/
theorem deleteComment_requires_authorship (au : AuthUser) (db : DB)
    (commentId videoId : String) (c : CommentDoc)
    (hc : getEntry db.commentDocs commentId = some c) :
    (c.userId ≠ au.uid → deleteComment (some au) db commentId videoId = (db, false)) ∧
    (∀ P, c.userId = au.uid → getEntry db.posts videoId = some P →
      (deleteComment (some au) db commentId videoId).2 = true ∧
      getEntry (deleteComment (some au) db commentId videoId).1.commentDocs commentId = none ∧
      getEntry (deleteComment (some au) db commentId videoId).1.posts videoId =
        some { P with comments := P.comments - 1 }) := by
  constructor
  · intro h
    simp [deleteComment, hc, h]
  · intro P he hP
    refine ⟨?_, ?_, ?_⟩ <;>
      simp [deleteComment, hc, he, hP, getEntry_removeEntry, getEntry_setEntry]

/-- Witness for C1: in `dbW`, non-author `mallory` cannot delete alice's
comment `c1` (nothing changes), while author `alice` deletes it and the
counter on `p1` drops from 5 to 4. -/
theorem deleteComment_requires_authorship_witness :
    (deleteComment (some ⟨"mallory", none⟩) dbW "c1" "p1" = (dbW, false)) ∧
    ((deleteComment (some ⟨"alice", none⟩) dbW "c1" "p1").2 = true ∧
      getEntry (deleteComment (some ⟨"alice", none⟩) dbW "c1" "p1").1.commentDocs "c1" = none ∧
      getEntry (deleteComment (some ⟨"alice", none⟩) dbW "c1" "p1").1.posts "p1" =
        some { alicePost with comments := alicePost.comments - 1 }) :=
  ⟨(deleteComment_requires_authorship ⟨"mallory", none⟩ dbW "c1" "p1" c1doc (by decide)).1
      (by decide),
    (deleteComment_requires_authorship ⟨"alice", none⟩ dbW "c1" "p1" c1doc (by decide)).2
      alicePost (by decide) (by decide)⟩

/-! ## C10 -/

/-- C10: `addComment` treats whitespace-only text like empty text — the
call returns an unsuccessful result and the database (comments and
counters) is unchanged — and whenever a comment is created its stored
text is the input with leading and trailing whitespace removed. -/
theorem addComment_trims_text (cu : Option AuthUser) (db : DB) (videoId text : String)
    (pr : Option UserProfileArg) :
    (jsTrim text = "" → addComment cu db videoId text pr = (db, ⟨false, none⟩)) ∧
    (∀ cid cdoc, (addComment cu db videoId text pr).2.commentId = some cid →
      getEntry (addComment cu db videoId text pr).1.commentDocs cid = some cdoc →
      cdoc.text = jsTrim text) := by
  constructor
  · intro h
    match cu with
    | none => rfl
    | some au => simp [addComment, h]
  · intro cid cdoc h1 h2
    match cu with
    | none => simp [addComment] at h1
    | some au =>
      by_cases ht : jsTrim text = ""
      · simp [addComment, ht] at h1
      · rcases hp : getEntry db.posts videoId with _ | P
        · simp [addComment, ht, hp] at h1
        · simp [addComment, ht, hp] at h1 h2
          subst h1
          simp [getEntry] at h2
          subst h2
          rfl

/-- The comment document created by the C10 witness call. -/
def hiComment : CommentDoc :=
  { videoId := "p1", text := "hi", userId := "u1", username := "anonymous"
    userPhotoURL := "", likes := 0 }

/-- Witness for C10: with user `u1` and post `p1` in `dbW`, text `"   "`
fails leaving `dbW` unchanged, and the comment created from `"  hi  "`
stores the trimmed text `"hi"`. -/
theorem addComment_trims_text_witness :
    (addComment (some ⟨"u1", none⟩) dbW "p1" "   " none = (dbW, ⟨false, none⟩)) ∧
    hiComment.text = jsTrim "  hi  " :=
  ⟨(addComment_trims_text (some ⟨"u1", none⟩) dbW "p1" "   " none).1 (by decide),
    (addComment_trims_text (some ⟨"u1", none⟩) dbW "p1" "  hi  " none).2 "doc0" hiComment
      (by decide) (by decide)⟩

/-! ## C4 -/

/-- C4 counterexample: the text `" "` is non-empty and certainly within
any length bound, so the claim requires the call to succeed; the code
returns an unsuccessful result and creates nothing (and, dually, the code
enforces no length bound at all — see the amended theorem, which succeeds
for text of every length). -/
theorem addComment_space_text_fails :
    " " ≠ "" ∧
    getEntry dbW.posts "p1" = some alicePost ∧
    addComment (some ⟨"u1", none⟩) dbW "p1" " " none = (dbW, ⟨false, none⟩) := by
  decide

/-- C4 (amended): `addComment` returns an unsuccessful result, creating
no comment and changing nothing, when the text trims to the empty string
(no length bound is enforced); for any text containing a non-whitespace
character, addressed at an existing post by an authenticated user, it
succeeds, creates the comment document, and increments the post's
`comments` counter by exactly 1. -/
theorem addComment_validation_spec (au : AuthUser) (db : DB) (videoId text : String)
    (pr : Option UserProfileArg) :
    (jsTrim text = "" → addComment (some au) db videoId text pr = (db, ⟨false, none⟩)) ∧
    (∀ P, getEntry db.posts videoId = some P → jsTrim text ≠ "" →
      (addComment (some au) db videoId text pr).2.success = true ∧
      (addComment (some au) db videoId text pr).2.commentId = some (freshId db.nextId) ∧
      getEntry (addComment (some au) db videoId text pr).1.commentDocs (freshId db.nextId) =
        some { videoId := videoId, text := jsTrim text, userId := au.uid
               username := commentUsernameOf pr au.email
               userPhotoURL := jsStringOr (pr.bind (fun p => p.photoURL)) "", likes := 0 } ∧
      getEntry (addComment (some au) db videoId text pr).1.posts videoId =
        some { P with comments := P.comments + 1 }) := by
  constructor
  · intro h
    simp [addComment, h]
  · intro P hP ht
    refine ⟨?_, ?_, ?_, ?_⟩ <;>
      simp [addComment, ht, hP, getEntry, getEntry_setEntry]

/-- Witness for C4 (amended): in `dbW`, `"   "` fails and leaves the
database unchanged, while `"nice"` succeeds and bumps `p1`'s comment
counter from 5 to 6. -/
theorem addComment_validation_spec_witness :
    (addComment (some ⟨"u1", none⟩) dbW "p1" "   " none = (dbW, ⟨false, none⟩)) ∧
    ((addComment (some ⟨"u1", none⟩) dbW "p1" "nice" none).2.success = true ∧
      (addComment (some ⟨"u1", none⟩) dbW "p1" "nice" none).2.commentId =
        some (freshId dbW.nextId) ∧
      getEntry (addComment (some ⟨"u1", none⟩) dbW "p1" "nice" none).1.commentDocs
          (freshId dbW.nextId) =
        some { videoId := "p1", text := jsTrim "nice", userId := "u1"
               username := commentUsernameOf none none
               userPhotoURL := jsStringOr none "", likes := 0 } ∧
      getEntry (addComment (some ⟨"u1", none⟩) dbW "p1" "nice" none).1.posts "p1" =
        some { alicePost with comments := alicePost.comments + 1 }) :=
  ⟨(addComment_validation_spec ⟨"u1", none⟩ dbW "p1" "   " none).1 (by decide),
    (addComment_validation_spec ⟨"u1", none⟩ dbW "p1" "nice" none).2 alicePost
      (by decide) (by decide)⟩

/-! ## C5 -/

/-- A post whose stored counter (0) has drifted below its single Like
edge. -/
def negPost : PostDoc :=
  { userId := "alice", title := "x", description := "", mediaUrl := "m"
    thumbnailUrl := "t", collectionName := "", timestamp := 1
    likes := 0, likedBy := ["u1"], comments := 0 }

/-- Database for the C5 counterexample. -/
def dbNeg : DB :=
  { posts := [("p2", negPost)], users := [("u1", u1User)]
    commentDocs := [], collections := [], nextId := 0 }

/-- C5 counterexample: the unlike half uses a bare `increment(-1)` with no
floor.  On a post whose counter is 0 while the caller's Like edge exists,
unliking drives the stored counter to `-1 < 0`, contradicting "floor of 0
... never becomes negative". -/
theorem unlike_no_floor :
    negPost.likes = 0 ∧ "u1" ∈ negPost.likedBy ∧
    getEntry (togglePostLike (some ⟨"u1", none⟩) dbNeg "p2" true).1.posts "p2" =
      some { negPost with likes := -1, likedBy := [] } ∧
    (-1 : Int) < 0 := by
  decide

/-- C5 (amended): for a post and user with an existing Like edge, the
unlike half deletes the edge and decrements the stored counter by exactly
1 — with no floor, so the counter can become negative; it stays
nonnegative whenever the counter agreed with the edge count beforehand. -/
theorem unlike_deletes_edge_decrements (au : AuthUser) (db : DB) (postId : String)
    (P : PostDoc) (U : UserDoc)
    (hP : getEntry db.posts postId = some P) (hU : getEntry db.users au.uid = some U)
    (hmem : au.uid ∈ P.likedBy) :
    (togglePostLike (some au) db postId true).2 = ⟨true, false, -1⟩ ∧
    getEntry (togglePostLike (some au) db postId true).1.posts postId =
      some (applyPostLike P au.uid false) ∧
    au.uid ∉ (applyPostLike P au.uid false).likedBy ∧
    (applyPostLike P au.uid false).likes = P.likes - 1 ∧
    (P.likes = (P.likedBy.length : Int) → 0 ≤ (applyPostLike P au.uid false).likes) := by
  refine ⟨?_, ?_, ?_, ?_, ?_⟩
  · simp [togglePostLike, hP, hU]
  · simp [togglePostLike, hP, hU, getEntry_setEntry]
  · simp [applyPostLike, arrayRemove, List.mem_filter]
  · simp [applyPostLike]
  · intro h
    have hlen : 0 < P.likedBy.length := List.length_pos_of_mem hmem
    simp [applyPostLike, h]
    omega

/-- A post with one like, consistent with its single edge. -/
def likedPost : PostDoc :=
  { userId := "alice", title := "y", description := "", mediaUrl := "m"
    thumbnailUrl := "t", collectionName := "", timestamp := 2
    likes := 1, likedBy := ["u2"], comments := 0 }

/-- The user holding that edge. -/
def u2User : UserDoc :=
  { likedPosts := ["p3"], username := none, displayName := none, isVerified := false }

/-- Database for the like-toggle witnesses. -/
def dbLiked : DB :=
  { posts := [("p3", likedPost)], users := [("u2", u2User)]
    commentDocs := [], collections := [], nextId := 0 }

/-- Witness for C5 (amended): user `u2` has liked `p3` (counter 1); the
unlike call removes the edge and brings the counter back to 0. -/
theorem unlike_deletes_edge_decrements_witness :
    (togglePostLike (some ⟨"u2", none⟩) dbLiked "p3" true).2 = ⟨true, false, -1⟩ ∧
    getEntry (togglePostLike (some ⟨"u2", none⟩) dbLiked "p3" true).1.posts "p3" =
      some (applyPostLike likedPost "u2" false) ∧
    "u2" ∉ (applyPostLike likedPost "u2" false).likedBy ∧
    (applyPostLike likedPost "u2" false).likes = likedPost.likes - 1 ∧
    (likedPost.likes = (likedPost.likedBy.length : Int) →
      0 ≤ (applyPostLike likedPost "u2" false).likes) :=
  unlike_deletes_edge_decrements ⟨"u2", none⟩ dbLiked "p3" likedPost u2User
    (by decide) (by decide) (by decide)

/-! ## C2 -/

/-- C2: toggling twice in immediate sequence for the same (post, user) —
the second call passing the `newLikeStatus` returned by the first, the
first passing the post's actual edge state as `isCurrentlyLiked` (which is
what `checkIfPostLiked` supplies) — returns the post's like count to its
original value and the (post, user) edge to its original existence
state. -/
theorem double_toggle_restores (au : AuthUser) (db : DB) (postId : String) (b : Bool)
    (P : PostDoc) (U : UserDoc)
    (hP : getEntry db.posts postId = some P) (hU : getEntry db.users au.uid = some U)
    (hb : b = decide (au.uid ∈ P.likedBy)) :
    ∃ P2, getEntry (togglePostLike (some au)
        (togglePostLike (some au) db postId b).1 postId
        (togglePostLike (some au) db postId b).2.newLikeStatus).1.posts postId = some P2 ∧
      P2.likes = P.likes ∧ ((au.uid ∈ P2.likedBy) ↔ (au.uid ∈ P.likedBy)) := by
  have h1posts : getEntry (togglePostLike (some au) db postId b).1.posts postId =
      some (applyPostLike P au.uid (!b)) := by
    simp [togglePostLike, hP, hU, getEntry_setEntry]
  have h1users : getEntry (togglePostLike (some au) db postId b).1.users au.uid =
      some (applyUserLike U postId (!b)) := by
    simp [togglePostLike, hP, hU, getEntry_setEntry]
  have h1status : (togglePostLike (some au) db postId b).2.newLikeStatus = !b := by
    simp [togglePostLike, hP, hU]
  refine ⟨applyPostLike (applyPostLike P au.uid (!b)) au.uid b, ?_, ?_, ?_⟩
  · rw [h1status]
    generalize hdb1 : (togglePostLike (some au) db postId b).1 = db1 at h1posts h1users
    simp [togglePostLike, h1posts, h1users, getEntry_setEntry]
  · cases b <;> simp [applyPostLike]
  · cases b with
    | true =>
      have hm : au.uid ∈ P.likedBy := by simpa using hb.symm
      simp [applyPostLike, arrayUnion, arrayRemove, List.mem_filter, List.mem_append, hm]
    | false =>
      have hm : au.uid ∉ P.likedBy := by simpa using hb.symm
      simp [applyPostLike, arrayUnion, arrayRemove, List.mem_filter, List.mem_append, hm]

/-- Witness for C2: user `u2` currently likes `p3`; unliking then
re-liking leaves the counter at 1 and the edge present. -/
theorem double_toggle_restores_witness :
    ∃ P2, getEntry (togglePostLike (some ⟨"u2", none⟩)
        (togglePostLike (some ⟨"u2", none⟩) dbLiked "p3" true).1 "p3"
        (togglePostLike (some ⟨"u2", none⟩) dbLiked "p3" true).2.newLikeStatus).1.posts "p3" =
      some P2 ∧
      P2.likes = likedPost.likes ∧ (("u2" ∈ P2.likedBy) ↔ ("u2" ∈ likedPost.likedBy)) :=
  double_toggle_restores ⟨"u2", none⟩ dbLiked "p3" true likedPost u2User
    (by decide) (by decide) (by decide)

/-! ## C6 -/

theorem updatePostsCollection_collections (title : String) (db : DB) (clips : List String) :
    (updatePostsCollection title db clips).1.collections = db.collections := by
  induction clips generalizing db with
  | nil => rfl
  | cons c rest ih =>
    simp only [updatePostsCollection]
    rcases h : getEntry db.posts c with _ | P
    · rfl
    · rw [ih]

theorem exists_getEntry_setEntry {α : Type} (l : List (String × α)) (k : String) (v : α)
    (c : String) (h : ∃ w, getEntry l c = some w) :
    ∃ w, getEntry (setEntry l k v) c = some w := by
  obtain ⟨w, hw⟩ := h
  by_cases e : c = k
  · subst e
    exact ⟨v, by simp [getEntry_setEntry, hw]⟩
  · exact ⟨w, by simp [getEntry_setEntry, e, hw]⟩

theorem updatePostsCollection_completes (title : String) (db : DB) (clips : List String)
    (h : ∀ c ∈ clips, ∃ P, getEntry db.posts c = some P) :
    (updatePostsCollection title db clips).2 = true := by
  induction clips generalizing db with
  | nil => rfl
  | cons c rest ih =>
    obtain ⟨P, hP⟩ := h c (by simp)
    simp only [updatePostsCollection, hP]
    exact ih _ (fun c' hc' => exists_getEntry_setEntry _ _ _ _ (h c' (by simp [hc'])))

theorem updatePostsCollection_keeps (title : String) (db : DB) (clips : List String)
    (c : String) (Q : PostDoc)
    (hQ : getEntry db.posts c = some Q) (hname : Q.collectionName = title) :
    ∃ Q', getEntry (updatePostsCollection title db clips).1.posts c = some Q' ∧
      Q'.collectionName = title := by
  induction clips generalizing db Q with
  | nil => exact ⟨Q, hQ, hname⟩
  | cons c0 rest ih =>
    simp only [updatePostsCollection]
    rcases h0 : getEntry db.posts c0 with _ | P0
    · exact ⟨Q, hQ, hname⟩
    · by_cases e : c = c0
      · refine ih _ ({ P0 with collectionName := title }) ?_ rfl
        simp [getEntry_setEntry, e, h0]
      · refine ih _ Q ?_ hname
        simp [getEntry_setEntry, e, hQ]

theorem updatePostsCollection_sets (title : String) (db : DB) (clips : List String)
    (hall : ∀ c ∈ clips, ∃ P, getEntry db.posts c = some P) :
    ∀ c ∈ clips, ∃ P', getEntry (updatePostsCollection title db clips).1.posts c = some P' ∧
      P'.collectionName = title := by
  induction clips generalizing db with
  | nil => intro c hc; cases hc
  | cons c0 rest ih =>
    intro c hc
    obtain ⟨P0, h0⟩ := hall c0 (by simp)
    simp only [updatePostsCollection, h0]
    rcases List.mem_cons.mp hc with e | hcr
    · subst e
      refine updatePostsCollection_keeps _ _ _ _ ({ P0 with collectionName := title }) ?_ rfl
      simp [getEntry_setEntry, h0]
    · exact ih _ (fun c' hc' => exists_getEntry_setEntry _ _ _ _ (hall c' (by simp [hc'])))
        c hcr

/-- A post sitting in collection `A`. -/
def postC6 : PostDoc :=
  { userId := "u", title := "c", description := "", mediaUrl := "m"
    thumbnailUrl := "t", collectionName := "A", timestamp := 3
    likes := 0, likedBy := [], comments := 0 }

/-- Database with two collections owned by `u`: `A` (1 item: `pc`) and
`B` (0 items). -/
def dbC6 : DB :=
  { posts := [("pc", postC6)], users := [], commentDocs := []
    collections := [("idA", ⟨"A", "u", 1⟩), ("idB", ⟨"B", "u", 0⟩)], nextId := 0 }

/-- C6 counterexample: moving post `pc` out of collection `A` into `B`
updates the post's collection reference and increments `B`'s item count,
but `A`'s item count stays at 1 — the claimed decrement of the old
collection's count never happens. -/
theorem addClips_old_count_not_decremented :
    postC6.collectionName = "A" ∧
    getEntry (handleAddClipsToCollection dbC6 ["pc"] (some "B") (some "idB")).posts "pc" =
      some { postC6 with collectionName := "B" } ∧
    getEntry (handleAddClipsToCollection dbC6 ["pc"] (some "B") (some "idB")).collections "idB" =
      some ⟨"B", "u", 1⟩ ∧
    getEntry (handleAddClipsToCollection dbC6 ["pc"] (some "B") (some "idB")).collections "idA" =
      some ⟨"A", "u", 1⟩ := by
  decide

/-- C6 (amended): `handleAddClipsToCollection` performs no ownership
check itself (the surrounding screen offers only the actor's own posts
and shows the add button only to the collection's owner); on a complete
run it sets each selected post's collection reference to the target
collection's title and increments the target collection's item count by
the number of selected clips, while every other collection's document —
including the posts' previous collection — is left unchanged. -/
theorem addClips_moves_and_counts (db : DB) (clips : List String) (title cid : String)
    (C : CollectionDoc)
    (hclips : clips ≠ []) (htitle : title ≠ "") (hcid : cid ≠ "")
    (hC : getEntry db.collections cid = some C)
    (hexist : ∀ c ∈ clips, ∃ P, getEntry db.posts c = some P) :
    (∀ c ∈ clips, ∃ P', getEntry
        (handleAddClipsToCollection db clips (some title) (some cid)).posts c = some P' ∧
        P'.collectionName = title) ∧
    getEntry (handleAddClipsToCollection db clips (some title) (some cid)).collections cid =
      some { C with itemCount := C.itemCount + clips.length } ∧
    (∀ cid' C', cid' ≠ cid → getEntry db.collections cid' = some C' →
      getEntry (handleAddClipsToCollection db clips (some title) (some cid)).collections cid' =
        some C') := by
  have hok : (updatePostsCollection title db clips).2 = true :=
    updatePostsCollection_completes _ _ _ hexist
  have hcoll : (updatePostsCollection title db clips).1.collections = db.collections :=
    updatePostsCollection_collections _ _ _
  have hempty : clips.isEmpty = false := by
    cases clips with
    | nil => exact absurd rfl hclips
    | cons a l => rfl
  refine ⟨?_, ?_, ?_⟩
  · intro c hc
    simp [handleAddClipsToCollection, hempty, htitle, hcid, hok, hcoll, hC]
    exact updatePostsCollection_sets _ _ _ hexist c hc
  · simp [handleAddClipsToCollection, hempty, htitle, hcid, hok, hcoll, hC, getEntry_setEntry]
  · intro cid' C' hne hC'
    simp [handleAddClipsToCollection, hempty, htitle, hcid, hok, hcoll, hC,
      getEntry_setEntry, hne, hC']

/-- Witness for C6 (amended): moving `pc` into collection `B` in `dbC6`. -/
theorem addClips_moves_and_counts_witness :
    (∀ c ∈ ["pc"], ∃ P', getEntry
        (handleAddClipsToCollection dbC6 ["pc"] (some "B") (some "idB")).posts c = some P' ∧
        P'.collectionName = "B") ∧
    getEntry (handleAddClipsToCollection dbC6 ["pc"] (some "B") (some "idB")).collections
        "idB" = some { (⟨"B", "u", 0⟩ : CollectionDoc) with itemCount := 0 + ["pc"].length } ∧
    (∀ cid' C', cid' ≠ "idB" → getEntry dbC6.collections cid' = some C' →
      getEntry (handleAddClipsToCollection dbC6 ["pc"] (some "B") (some "idB")).collections
        cid' = some C') :=
  addClips_moves_and_counts dbC6 ["pc"] "B" "idB" ⟨"B", "u", 0⟩
    (by decide) (by decide) (by decide) (by decide)
    (fun c hc => by rw [List.mem_singleton.mp hc]; exact ⟨postC6, by decide⟩)

/-! ## C7 -/

/-- C7: the storage security rules enforce the documented per-kind limits
before any write is accepted — a video clip write larger than 50MB or with
a non-`video/*` content type is rejected, and an image write (profile
picture or collection cover; thumbnails are bounded even tighter at 2MB)
larger than 5MB or with a non-`image/*` content type is rejected. -/
theorem storage_rules_reject_violations (userId : String) (r : StorageWriteRequest) :
    (50 * 1024 * 1024 < r.size ∨ isVideoType r.contentType = false →
      clipsWriteAllowed userId r = false) ∧
    (5 * 1024 * 1024 < r.size ∨ isImageType r.contentType = false →
      profilePicturesWriteAllowed userId r = false ∧
      collectionsWriteAllowed userId r = false ∧
      thumbnailsWriteAllowed userId r = false) := by
  constructor
  · rintro (h | h)
    · have hn : ¬ r.size < 50 * 1024 * 1024 := by omega
      simp [clipsWriteAllowed, hn]
    · simp [clipsWriteAllowed, h]
  · rintro (h | h)
    · have h5 : ¬ r.size < 5 * 1024 * 1024 := by omega
      have h2 : ¬ r.size < 2 * 1024 * 1024 := by omega
      simp [profilePicturesWriteAllowed, collectionsWriteAllowed, thumbnailsWriteAllowed, h5, h2]
    · simp [profilePicturesWriteAllowed, collectionsWriteAllowed, thumbnailsWriteAllowed, h]

/-- Witness for C7: a 60MB video upload and a 6MB image upload by their
owner are both rejected by every relevant rule. -/
theorem storage_rules_reject_violations_witness :
    clipsWriteAllowed "u" ⟨some "u", 60 * 1024 * 1024, "video/mp4"⟩ = false ∧
    (profilePicturesWriteAllowed "u" ⟨some "u", 6 * 1024 * 1024, "image/png"⟩ = false ∧
      collectionsWriteAllowed "u" ⟨some "u", 6 * 1024 * 1024, "image/png"⟩ = false ∧
      thumbnailsWriteAllowed "u" ⟨some "u", 6 * 1024 * 1024, "image/png"⟩ = false) :=
  ⟨(storage_rules_reject_violations "u" ⟨some "u", 60 * 1024 * 1024, "video/mp4"⟩).1
      (Or.inl (by norm_num)),
    (storage_rules_reject_violations "u" ⟨some "u", 6 * 1024 * 1024, "image/png"⟩).2
      (Or.inl (by norm_num))⟩

/-! ## C3 -/

theorem applyPostLike_likedBy_nodup (P : PostDoc) (uid : String) (s : Bool)
    (h : P.likedBy.Nodup) : (applyPostLike P uid s).likedBy.Nodup := by
  cases s with
  | false => exact h.filter _
  | true =>
    by_cases hm : uid ∈ P.likedBy
    · simpa [applyPostLike, arrayUnion, hm] using h
    · simp [applyPostLike, arrayUnion, hm, List.nodup_append, h]

theorem edges_nodup_setEntry (posts : List (String × PostDoc)) (pid : String) (P : PostDoc)
    (h : ∀ pid' P', getEntry posts pid' = some P' → P'.likedBy.Nodup)
    (hP : P.likedBy.Nodup) :
    ∀ pid' P', getEntry (setEntry posts pid P) pid' = some P' → P'.likedBy.Nodup := by
  intro pid' P' hP'
  rw [getEntry_setEntry] at hP'
  by_cases e : pid' = pid
  · rw [if_pos e] at hP'
    rcases hQ : getEntry posts pid with _ | Q
    · rw [hQ] at hP'; cases hP'
    · rw [hQ] at hP'
      simp at hP'
      rw [← hP']
      exact hP
  · rw [if_neg e] at hP'
    exact h pid' P' hP'

theorem togglePostLike_preserves_atMostOneEdge (cu : Option AuthUser) (db : DB)
    (postId : String) (b : Bool) (h : atMostOneEdge db) :
    atMostOneEdge (togglePostLike cu db postId b).1 := by
  match cu with
  | none => exact h
  | some au =>
    rcases hP : getEntry db.posts postId with _ | P
    · simpa [togglePostLike, hP] using h
    · have hv : (applyPostLike P au.uid (!b)).likedBy.Nodup :=
        applyPostLike_likedBy_nodup P au.uid (!b) (h postId P hP)
      rcases hU : getEntry db.users au.uid with _ | U
      · have hposts : (togglePostLike (some au) db postId b).1.posts =
            setEntry (setEntry db.posts postId (applyPostLike P au.uid (!b))) postId
              (fallbackDoc (applyPostLike P au.uid (!b)) (!b)) := by
          simp [togglePostLike, hP, hU, getEntry_setEntry]
        intro pid P' hP'
        rw [hposts] at hP'
        exact edges_nodup_setEntry _ postId (fallbackDoc (applyPostLike P au.uid (!b)) (!b))
          (edges_nodup_setEntry _ postId _ h hv) hv pid P' hP'
      · have hposts : (togglePostLike (some au) db postId b).1.posts =
            setEntry db.posts postId (applyPostLike P au.uid (!b)) := by
          simp [togglePostLike, hP, hU]
        intro pid P' hP'
        rw [hposts] at hP'
        exact edges_nodup_setEntry _ postId _ h hv pid P' hP'

theorem getEntry_map_snd {α β : Type} (f : α → β) (l : List (String × α)) (k : String) :
    getEntry (l.map (fun kv => (kv.1, f kv.2))) k = (getEntry l k).map f := by
  induction l with
  | nil => rfl
  | cons hd tl ih => by_cases h : hd.1 = k <;> simp [getEntry, h, ih]

theorem getEntry_mem {α : Type} (l : List (String × α)) (k : String) (v : α)
    (h : getEntry l k = some v) : (k, v) ∈ l := by
  induction l with
  | nil => cases h
  | cons hd tl ih =>
    obtain ⟨hk, hv⟩ := hd
    by_cases e : hk = k
    · rw [getEntry, if_pos e] at h
      cases h
      subst e
      exact List.mem_cons_self _ _
    · rw [getEntry, if_neg e] at h
      exact List.mem_cons_of_mem _ (ih h)

theorem atMostOneEdge_of_posts (db : DB) (h : ∀ kv ∈ db.posts, kv.2.likedBy.Nodup) :
    atMostOneEdge db :=
  fun pid P hP => h (pid, P) (getEntry_mem _ _ _ hP)

/-- C3: starting from a database in which every post holds each user at
most once in its `likedBy` edge array, any sequence of `togglePostLike`
calls (any callers, posts, and flags — i.e. regardless of interleaving)
preserves that at-most-one-edge invariant; and after the reconciliation
sweep (modelled from the spec, as the source implements none) every
post's stored `likes` counter equals the number of distinct users holding
a Like edge on it. -/
theorem toggles_keep_unique_edges_and_reconcile (db : DB) (ops : List ToggleOp)
    (h : atMostOneEdge db) :
    atMostOneEdge (runToggles db ops) ∧
    ∀ pid P, getEntry (reconcile (runToggles db ops)).posts pid = some P →
      P.likes = (P.likedBy.dedup.length : Int) ∧ P.likedBy.Nodup := by
  have hrun : atMostOneEdge (runToggles db ops) := by
    induction ops generalizing db with
    | nil => exact h
    | cons op rest ih =>
      exact ih _ (togglePostLike_preserves_atMostOneEdge _ _ _ _ h)
  refine ⟨hrun, ?_⟩
  intro pid P hP
  simp only [reconcile, getEntry_map_snd] at hP
  rcases hQ : getEntry (runToggles db ops).posts pid with _ | Q
  · rw [hQ] at hP; cases hP
  · rw [hQ] at hP
    simp at hP
    rw [← hP]
    exact ⟨rfl, by simpa [reconcilePost] using hrun pid Q hQ⟩

/-- The toggle sequence used by the C3 witness: `u2` unlikes then
re-likes `p3`. -/
def opsW : List ToggleOp :=
  [⟨some ⟨"u2", none⟩, "p3", true⟩, ⟨some ⟨"u2", none⟩, "p3", false⟩]

/-- Witness for C3: running `opsW` on `dbLiked`. -/
theorem toggles_keep_unique_edges_and_reconcile_witness :
    atMostOneEdge (runToggles dbLiked opsW) ∧
    ∀ pid P, getEntry (reconcile (runToggles dbLiked opsW)).posts pid = some P →
      P.likes = (P.likedBy.dedup.length : Int) ∧ P.likedBy.Nodup :=
  toggles_keep_unique_edges_and_reconcile dbLiked opsW
    (atMostOneEdge_of_posts dbLiked (by decide))

/-! ## C8 -/

theorem mem_insertByTs (p q : String × PostDoc) (l : List (String × PostDoc)) :
    q ∈ insertByTs p l ↔ q = p ∨ q ∈ l := by
  induction l with
  | nil => simp [insertByTs]
  | cons hd tl ih =>
    by_cases h : hd.2.timestamp ≤ p.2.timestamp
    · simp [insertByTs, h, ih]
    · simp [insertByTs, h, ih]
      tauto

theorem insertByTs_pairwise (p : String × PostDoc) (l : List (String × PostDoc))
    (h : List.Pairwise (fun x y => y.2.timestamp ≤ x.2.timestamp) l) :
    List.Pairwise (fun x y => y.2.timestamp ≤ x.2.timestamp) (insertByTs p l) := by
  induction l with
  | nil => simp [insertByTs]
  | cons hd tl ih =>
    rw [List.pairwise_cons] at h
    obtain ⟨h1, h2⟩ := h
    by_cases hc : hd.2.timestamp ≤ p.2.timestamp
    · rw [insertByTs, if_pos hc]
      refine List.Pairwise.cons ?_ (List.Pairwise.cons h1 h2)
      intro q hq
      rcases List.mem_cons.mp hq with e | hq'
      · subst e; exact hc
      · exact le_trans (h1 q hq') hc
    · rw [insertByTs, if_neg hc]
      refine List.Pairwise.cons ?_ (ih h2)
      intro q hq
      rcases (mem_insertByTs p q tl).mp hq with e | hq'
      · subst e; omega
      · exact h1 q hq'

theorem sortByTsDesc_pairwise (l : List (String × PostDoc)) :
    List.Pairwise (fun x y => y.2.timestamp ≤ x.2.timestamp) (sortByTsDesc l) := by
  induction l with
  | nil => simp [sortByTsDesc]
  | cons hd tl ih =>
    simpa [sortByTsDesc] using insertByTs_pairwise hd _ (by simpa [sortByTsDesc] using ih)

theorem feedPage_pairwise (db : DB) :
    List.Pairwise (fun x y => y.2.timestamp ≤ x.2.timestamp) (feedPage db) :=
  List.Pairwise.sublist (List.take_sublist _ _) (sortByTsDesc_pairwise db.posts)

/-- Every cached user document agrees with the backing store (a
read-through cache only ever holds fetched documents). -/
def cacheConsistent (cache store : List (String × UserDoc)) : Prop :=
  ∀ k u, getEntry cache k = some u → getEntry store k = some u

theorem getUserData_result (cache store : List (String × UserDoc)) (id : String)
    (hcons : cacheConsistent cache store) :
    (getUserData cache store id).1 = getEntry store id := by
  rcases hc : getEntry cache id with _ | u
  · simp [getUserData, hc]
  · have hs := hcons id u hc
    simp [getUserData, hc, hs]

theorem buildFeed_items (cache store : List (String × UserDoc))
    (page : List (String × PostDoc)) (hcons : cacheConsistent cache store) :
    (buildFeed cache store page).1 = page.map
      (fun pq => mkFeedItem pq.1 pq.2
        (if pq.2.userId = "" then none else getEntry store pq.2.userId)) := by
  induction page with
  | nil => simp [buildFeed]
  | cons hd tl ih =>
    obtain ⟨pid, P⟩ := hd
    by_cases h0 : P.userId = ""
    · simp [buildFeed, h0, ih]
    · simp [buildFeed, h0, ih, getUserData_result cache store P.userId hcons]

theorem buildFeed_fetches (cache store : List (String × UserDoc))
    (page : List (String × PostDoc)) :
    (buildFeed cache store page).2 = (page.filter
      (fun pq => !(pq.2.userId == "") && (getEntry cache pq.2.userId).isNone)).map
      (fun pq => pq.2.userId) := by
  induction page with
  | nil => simp [buildFeed]
  | cons hd tl ih =>
    obtain ⟨pid, P⟩ := hd
    by_cases h0 : P.userId = ""
    · simp [buildFeed, h0, ih]
    · rcases hc : getEntry cache P.userId with _ | u
      · simp [buildFeed, getUserData, h0, hc, ih]
      · simp [buildFeed, getUserData, h0, hc, ih]

theorem prefetchUsers_all (cache store : List (String × UserDoc)) (ids : List String) :
    prefetchUsers cache store (ids.filter (fun i => (getEntry cache i).isNone)) =
      ids.filter (fun i => (getEntry cache i).isNone) := by
  apply List.filter_eq_self.mpr
  intro a ha
  have hn : (getEntry cache a).isNone := (List.mem_filter.mp ha).2
  rcases hc : getEntry cache a with _ | u
  · simp [getUserData, hc]
  · rw [hc] at hn; cases hn

/-- An older post by alice. -/
def postA : PostDoc :=
  { userId := "alice", title := "old", description := "", mediaUrl := "a"
    thumbnailUrl := "ta", collectionName := "", timestamp := 1
    likes := 0, likedBy := [], comments := 0 }

/-- A newer post by alice. -/
def postB : PostDoc :=
  { userId := "alice", title := "new", description := "", mediaUrl := "b"
    thumbnailUrl := "tb", collectionName := "", timestamp := 9
    likes := 0, likedBy := [], comments := 0 }

/-- Database for the C8 counterexample and witness: two posts by the same
author. -/
def feedDb : DB :=
  { posts := [("pA", postA), ("pB", postB)], users := [("alice", aliceUser)]
    commentDocs := [], collections := [], nextId := 0 }

/-- C8 counterexample: building the page of `feedDb` (two posts by
`alice`) from an empty cache fetches `alice` from the store three times
— once in the prefetch and once more per post — because the per-post
`getUserData` calls read the stale `userCache` closure that
`setUserCache` never updates within the same page build.  The claim's
"the same author is not re-fetched repeatedly within one page" is
false. -/
theorem fetchAllPosts_refetches_author :
    (getEntry feedDb.users "alice").isSome = true ∧
    (fetchAllPosts feedDb []).2 = ["alice", "alice", "alice"] := by
  decide

/-- C8 (amended): the feed page is the 20 newest posts in descending
creation-time order, and each post is joined with its author's
denormalized snapshot exactly as stored in the `users` store, resolved
through `getUserData` over the `userCache`; but since the cache is React
state read from a stale closure, the build's store-fetch log is exactly
the uncached distinct author ids (the prefetch) followed by one id per
post whose author was not already cached before the build — an uncached
author with k posts is fetched k+1 times; only authors cached before the
page build are not fetched. -/
theorem fetchAllPosts_page_spec (db : DB) (cache : List (String × UserDoc))
    (hcons : cacheConsistent cache db.users) :
    List.Pairwise (fun x y => y.2.timestamp ≤ x.2.timestamp) (feedPage db) ∧
    (fetchAllPosts db cache).1 = (feedPage db).map
      (fun pq => mkFeedItem pq.1 pq.2
        (if pq.2.userId = "" then none else getEntry db.users pq.2.userId)) ∧
    (fetchAllPosts db cache).2 =
      (((feedPage db).map (fun p => p.2.userId)).dedup.filter
        (fun i => (getEntry cache i).isNone)) ++
      (((feedPage db).filter (fun pq => !(pq.2.userId == "") &&
        (getEntry cache pq.2.userId).isNone)).map (fun pq => pq.2.userId)) := by
  refine ⟨feedPage_pairwise db, ?_, ?_⟩
  · exact buildFeed_items cache db.users (feedPage db) hcons
  · show prefetchUsers cache db.users
        (((feedPage db).map (fun p => p.2.userId)).dedup.filter
          (fun i => (getEntry cache i).isNone)) ++
        (buildFeed cache db.users (feedPage db)).2 = _
    rw [prefetchUsers_all, buildFeed_fetches]

/-- Witness for C8 (amended): building the feed page of `feedDb` from an
empty cache. -/
theorem fetchAllPosts_page_spec_witness :
    List.Pairwise (fun x y => y.2.timestamp ≤ x.2.timestamp) (feedPage feedDb) ∧
    (fetchAllPosts feedDb []).1 = (feedPage feedDb).map
      (fun pq => mkFeedItem pq.1 pq.2
        (if pq.2.userId = "" then none else getEntry feedDb.users pq.2.userId)) ∧
    (fetchAllPosts feedDb []).2 =
      (((feedPage feedDb).map (fun p => p.2.userId)).dedup.filter
        (fun i => (getEntry ([] : List (String × UserDoc)) i).isNone)) ++
      (((feedPage feedDb).filter (fun pq => !(pq.2.userId == "") &&
        (getEntry ([] : List (String × UserDoc)) pq.2.userId).isNone)).map
        (fun pq => pq.2.userId)) :=
  fetchAllPosts_page_spec feedDb [] (fun _ _ h => Option.noConfusion h)

end XYZen
